import Mathlib

/-!
Shallow embedding of PostgreSQL's SQL/JSON path executor
(`src/backend/utils/adt/jsonpath_exec.c`) and proofs about it.

Host primitives (numeric, date/time, regex, encoding) are external
collaborators of that file; they are modelled abstractly (as structure
fields or function parameters) while every function of the file itself is
translated statement by statement.
-/

namespace JsonpathExec

/-- Result of jsonpath predicate evaluation (enum `JsonPathBool`). -/
inductive JsonPathBool where
  | jpbFalse
  | jpbTrue
  | jpbUnknown
deriving DecidableEq

/-- Result of jsonpath expression evaluation (enum `JsonPathExecResult`). -/
inductive JsonPathExecResult where
  | jperOk
  | jperNotFound
  | jperError
deriving DecidableEq

/-- The six comparison operator item types accepted by `compareItems`. -/
inductive JspCmpOp where
  | jpiEqual
  | jpiNotEqual
  | jpiLess
  | jpiGreater
  | jpiLessOrEqual
  | jpiGreaterOrEqual
deriving DecidableEq

/-- Error codes raised via `ereport(ERROR, ...)` by the modelled code paths.
`hostArithmeticError` stands for whatever error a host numeric function
(e.g. division by zero in `numeric_div_opt_error`) raises when its
`error` out-parameter is not supplied. -/
inductive PgErrCode where
  | featureNotSupported
  | singletonSqlJsonItemRequired
  | sqlJsonNumberNotFound
  | sqlJsonObjectNotFound
  | hostArithmeticError
deriving DecidableEq

deriving instance DecidableEq for Except

/-- SQL/JSON datetime type tags (the oids `DATEOID`, `TIMEOID`, `TIMETZOID`,
`TIMESTAMPOID`, `TIMESTAMPTZOID` dispatched on by `compareDatetime`). -/
inductive DtType where
  | date
  | time
  | timetz
  | timestamp
  | timestamptz
deriving DecidableEq

/-- Host date/time primitives used by `compareDatetime` and its helpers.
These live outside `jsonpath_exec.c` (`utils/date.h`, `utils/timestamp.h`);
datum payloads are modelled as integers.  Each `*_cmp*` field models the
corresponding host comparison function; `time_timetz` models the
`time_timetz` conversion function applied by `castTimeToTimeTz`. -/
structure HostDatetimeOps where
  date_cmp : Int → Int → Int
  time_cmp : Int → Int → Int
  timetz_cmp : Int → Int → Int
  timestamp_cmp : Int → Int → Int
  time_timetz : Int → Int
  date_cmp_timestamp_internal : Int → Int → Int
  date_cmp_timestamptz_internal : Int → Int → Int
  timestamp_cmp_timestamptz_internal : Int → Int → Int

/-- Translation of `checkTimezoneIsUsedForCast`: raises
`ERRCODE_FEATURE_NOT_SUPPORTED` when `useTz` is false. -/
def checkTimezoneIsUsedForCast (useTz : Bool) : Except PgErrCode Unit :=
  if !useTz then .error .featureNotSupported else .ok ()

/-- Translation of `castTimeToTimeTz`: checks timezone use, then converts a
time datum to a timetz datum via the host `time_timetz` function. -/
def castTimeToTimeTz (ops : HostDatetimeOps) (time : Int) (useTz : Bool) :
    Except PgErrCode Int :=
  match checkTimezoneIsUsedForCast useTz with
  | .error e => .error e
  | .ok _ => .ok (ops.time_timetz time)

/-- Translation of `cmpDateToTimestamp`: no timezone considerations. -/
def cmpDateToTimestamp (ops : HostDatetimeOps) (date1 ts2 : Int)
    (_useTz : Bool) : Except PgErrCode Int :=
  .ok (ops.date_cmp_timestamp_internal date1 ts2)

/-- Translation of `cmpDateToTimestampTz`: requires timezone use. -/
def cmpDateToTimestampTz (ops : HostDatetimeOps) (date1 tstz2 : Int)
    (useTz : Bool) : Except PgErrCode Int :=
  match checkTimezoneIsUsedForCast useTz with
  | .error e => .error e
  | .ok _ => .ok (ops.date_cmp_timestamptz_internal date1 tstz2)

/-- Translation of `cmpTimestampToTimestampTz`: requires timezone use. -/
def cmpTimestampToTimestampTz (ops : HostDatetimeOps) (ts1 tstz2 : Int)
    (useTz : Bool) : Except PgErrCode Int :=
  match checkTimezoneIsUsedForCast useTz with
  | .error e => .error e
  | .ok _ => .ok (ops.timestamp_cmp_timestamptz_internal ts1 tstz2)

/-- Translation of `compareDatetime`: cross-type comparison of two datetime
SQL/JSON items.  The returned pair is (comparison result, `cast_error`
flag); a raised `ereport` becomes `Except.error`. -/
def compareDatetime (ops : HostDatetimeOps) (val1 : Int) (typid1 : DtType)
    (val2 : Int) (typid2 : DtType) (useTz : Bool) :
    Except PgErrCode (Int × Bool) :=
  match typid1, typid2 with
  | .date, .date => .ok (ops.date_cmp val1 val2, false)
  | .date, .timestamp =>
    (cmpDateToTimestamp ops val1 val2 useTz).map (fun c => (c, false))
  | .date, .timestamptz =>
    (cmpDateToTimestampTz ops val1 val2 useTz).map (fun c => (c, false))
  | .date, .time => .ok (0, true)
  | .date, .timetz => .ok (0, true)
  | .time, .time => .ok (ops.time_cmp val1 val2, false)
  | .time, .timetz =>
    (castTimeToTimeTz ops val1 useTz).map (fun v1 => (ops.timetz_cmp v1 val2, false))
  | .time, .date => .ok (0, true)
  | .time, .timestamp => .ok (0, true)
  | .time, .timestamptz => .ok (0, true)
  | .timetz, .time =>
    (castTimeToTimeTz ops val2 useTz).map (fun v2 => (ops.timetz_cmp val1 v2, false))
  | .timetz, .timetz => .ok (ops.timetz_cmp val1 val2, false)
  | .timetz, .date => .ok (0, true)
  | .timetz, .timestamp => .ok (0, true)
  | .timetz, .timestamptz => .ok (0, true)
  | .timestamp, .date =>
    (cmpDateToTimestamp ops val2 val1 useTz).map (fun c => (-c, false))
  | .timestamp, .timestamp => .ok (ops.timestamp_cmp val1 val2, false)
  | .timestamp, .timestamptz =>
    (cmpTimestampToTimestampTz ops val1 val2 useTz).map (fun c => (c, false))
  | .timestamp, .time => .ok (0, true)
  | .timestamp, .timetz => .ok (0, true)
  | .timestamptz, .date =>
    (cmpDateToTimestampTz ops val2 val1 useTz).map (fun c => (-c, false))
  | .timestamptz, .timestamp =>
    (cmpTimestampToTimestampTz ops val2 val1 useTz).map (fun c => (-c, false))
  | .timestamptz, .timestamptz => .ok (ops.timestamp_cmp val1 val2, false)
  | .timestamptz, .time => .ok (0, true)
  | .timestamptz, .timetz => .ok (0, true)

/-- SQL/JSON item values flowing through the executor (`JsonbValue`).
Scalars are always decoded (the executor's invariant), so `array` and
`object` model `jbvBinary` values whose container is a non-scalar array
resp. object; their contents are the container's already-decoded members.
Strings carry their byte sequences; numerics are arbitrary-precision. -/
inductive Jbv where
  | null
  | bool (b : Bool)
  | numeric (n : ℚ)
  | string (bytes : List Nat)
  | datetime (value : Int) (typid : DtType)
  | array (elems : List Jbv)
  | object (pairs : List (List Nat × Jbv))

/-- The `jbvType` tag used for the type-mismatch test in `compareItems`.
In C both arrays and objects reach `compareItems` as `jbvBinary`; keeping
two tags here is equivalent because `compareItems` sends every pairing
that involves a non-scalar (other than the null-vs-anything case) to the
same `jpbUnknown` outcome as the C code does. -/
inductive JbvType where
  | jbvNull
  | jbvString
  | jbvNumeric
  | jbvBool
  | jbvDatetime
  | jbvArray
  | jbvObject
deriving DecidableEq

/-- Type tag of a value. -/
def Jbv.jbvTypeOf : Jbv → JbvType
  | .null => .jbvNull
  | .bool _ => .jbvBool
  | .numeric _ => .jbvNumeric
  | .string _ => .jbvString
  | .datetime _ _ => .jbvDatetime
  | .array _ => .jbvArray
  | .object _ => .jbvObject

/-- Model of the host `numeric_cmp` used by `compareNumeric`: sign of the
arbitrary-precision comparison. -/
def compareNumeric (a b : ℚ) : Int :=
  if a < b then -1 else if b < a then 1 else 0

/-- Model of `memcmp(s1, s2, Min(len1, len2))`: sign of the first
differing byte among the common first bytes, 0 when they agree. -/
def memcmpBytes : List Nat → List Nat → Int
  | a :: as, b :: bs =>
    if a < b then -1 else if b < a then 1 else memcmpBytes as bs
  | _, _ => 0

/-- Translation of `binaryCompareStrings`: per-byte comparison with length
tie-break. -/
def binaryCompareStrings (s1 s2 : List Nat) : Int :=
  let cmp := memcmpBytes s1 s2
  if cmp ≠ 0 then cmp
  else if s1.length = s2.length then 0
  else if s1.length < s2.length then -1 else 1

/-- Translation of `compareStrings` in the ASCII/UTF-8 server-encoding fast
path (binary comparison matches codepoint comparison); the transcoding
branch for other server encodings is a host-encoding concern. -/
def compareStrings (mbstr1 mbstr2 : List Nat) : Int :=
  binaryCompareStrings mbstr1 mbstr2

/-- The operator dispatch at the bottom of `compareItems`: turns the
integer comparison result into a `JsonPathBool` for the operator. -/
def applyCmp (op : JspCmpOp) (cmp : Int) : JsonPathBool :=
  match op with
  | .jpiEqual => if cmp = 0 then .jpbTrue else .jpbFalse
  | .jpiNotEqual => if cmp ≠ 0 then .jpbTrue else .jpbFalse
  | .jpiLess => if cmp < 0 then .jpbTrue else .jpbFalse
  | .jpiGreater => if cmp > 0 then .jpbTrue else .jpbFalse
  | .jpiLessOrEqual => if cmp ≤ 0 then .jpbTrue else .jpbFalse
  | .jpiGreaterOrEqual => if cmp ≥ 0 then .jpbTrue else .jpbFalse

/-- Translation of `compareItems`: compare two SQL/JSON items with
operator `op`.  Type-mismatched operands short-circuit (null against
non-null answers per SQL, otherwise Unknown); same-typed scalars are
compared and the result is mapped through the operator; non-scalars are
not comparable.  The final catch-all covers constructor pairings already
excluded by the type-tag guard. -/
def compareItems (ops : HostDatetimeOps) (op : JspCmpOp) (jb1 jb2 : Jbv)
    (useTz : Bool) : Except PgErrCode JsonPathBool :=
  if jb1.jbvTypeOf ≠ jb2.jbvTypeOf then
    if jb1.jbvTypeOf = .jbvNull ∨ jb2.jbvTypeOf = .jbvNull then
      .ok (if op = .jpiNotEqual then .jpbTrue else .jpbFalse)
    else
      .ok .jpbUnknown
  else
    match jb1, jb2 with
    | .null, .null => .ok (applyCmp op 0)
    | .bool b1, .bool b2 =>
      .ok (applyCmp op (if b1 = b2 then 0 else if b1 then 1 else -1))
    | .numeric n1, .numeric n2 => .ok (applyCmp op (compareNumeric n1 n2))
    | .string s1, .string s2 =>
      if op = .jpiEqual then
        .ok (if s1.length ≠ s2.length ∨ memcmpBytes s1 s2 ≠ 0
             then .jpbFalse else .jpbTrue)
      else
        .ok (applyCmp op (compareStrings s1 s2))
    | .datetime v1 t1, .datetime v2 t2 =>
      match compareDatetime ops v1 t1 v2 t2 useTz with
      | .error e => .error e
      | .ok (c, cast_error) =>
        if cast_error then .ok .jpbUnknown else .ok (applyCmp op c)
    | .array _, _ => .ok .jpbUnknown
    | .object _, _ => .ok .jpbUnknown
    | _, _ => .ok .jpbUnknown

/-- Scalar type tags (every tag other than array and object). -/
def JbvType.isScalar : JbvType → Bool
  | .jbvArray => false
  | .jbvObject => false
  | _ => true

/-- Comparable datetime type pairs per the ladder of `compareDatetime`
(the pairs that do not set `cast_error`). -/
def dtComparable : DtType → DtType → Bool
  | .date, .date => true
  | .date, .timestamp => true
  | .date, .timestamptz => true
  | .time, .time => true
  | .time, .timetz => true
  | .timetz, .time => true
  | .timetz, .timetz => true
  | .timestamp, .date => true
  | .timestamp, .timestamp => true
  | .timestamp, .timestamptz => true
  | .timestamptz, .date => true
  | .timestamptz, .timestamp => true
  | .timestamptz, .timestamptz => true
  | _, _ => false

/-- Datetime type pairs whose comparison path calls
`checkTimezoneIsUsedForCast` (marked † in the spec's ladder). -/
def dtNeedsTz : DtType → DtType → Bool
  | .date, .timestamptz => true
  | .timestamptz, .date => true
  | .timestamp, .timestamptz => true
  | .timestamptz, .timestamp => true
  | .time, .timetz => true
  | .timetz, .time => true
  | _, _ => false

/-- Concrete model of the host date/time primitives used to witness the
ladder theorem: datums are integers, comparisons are integer sign
comparisons, a date datum converts to a timestamp-scale datum by the
microseconds-per-day factor. -/
def intCmp (a b : Int) : Int :=
  if a < b then -1 else if b < a then 1 else 0

/-- Integer instantiation of `HostDatetimeOps` for witnesses. -/
def pgHostOpsModel : HostDatetimeOps :=
  ⟨intCmp, intCmp, intCmp, intCmp, fun t => t,
   fun d ts => intCmp (d * 86400000000) ts,
   fun d tstz => intCmp (d * 86400000000) tstz,
   intCmp⟩

/-- Boolean jsonpath expressions as dispatched by `executeBoolItem`.
`pred` stands for any of the leaf predicate forms (comparison,
`starts with`, `like_regex`, `exists`), which `executeBoolItem` hands to
`executePredicate` or the exists-machinery; the leaf carries the
tri-valued result that machinery produces together with an identifier so
that evaluation traces can be observed. -/
inductive BoolExpr where
  | pred (pid : Nat) (res : JsonPathBool)
  | jpiAnd (l r : BoolExpr)
  | jpiOr (l r : BoolExpr)
  | jpiNot (a : BoolExpr)
  | jpiIsUnknown (a : BoolExpr)

/-- Translation of `executeBoolItem` (the `jpiAnd`, `jpiOr`, `jpiNot`,
`jpiIsUnknown` and leaf-predicate arms), instrumented with the list of
predicate leaves evaluated, in evaluation order.  The control flow is the
source's: AND returns as soon as the left argument is False, OR as soon
as it is True; otherwise the right argument is evaluated (to surface its
errors) and combined. -/
def executeBoolItem : BoolExpr → JsonPathBool × List Nat
  | .pred pid res => (res, [pid])
  | .jpiAnd l r =>
    let lres := executeBoolItem l
    if lres.1 = .jpbFalse then (.jpbFalse, lres.2)
    else
      let rres := executeBoolItem r
      ((if rres.1 = .jpbTrue then lres.1 else rres.1), lres.2 ++ rres.2)
  | .jpiOr l r =>
    let lres := executeBoolItem l
    if lres.1 = .jpbTrue then (.jpbTrue, lres.2)
    else
      let rres := executeBoolItem r
      ((if rres.1 = .jpbFalse then lres.1 else rres.1), lres.2 ++ rres.2)
  | .jpiNot a =>
    let ares := executeBoolItem a
    if ares.1 = .jpbUnknown then (.jpbUnknown, ares.2)
    else ((if ares.1 = .jpbTrue then .jpbFalse else .jpbTrue), ares.2)
  | .jpiIsUnknown a =>
    let ares := executeBoolItem a
    ((if ares.1 = .jpbUnknown then .jpbTrue else .jpbFalse), ares.2)

/-- Kleene conjunction as the spec states it: False if either operand is
False, else Unknown if either is Unknown, else True. -/
def kleeneAnd (a b : JsonPathBool) : JsonPathBool :=
  if a = .jpbFalse ∨ b = .jpbFalse then .jpbFalse
  else if a = .jpbUnknown ∨ b = .jpbUnknown then .jpbUnknown
  else .jpbTrue

/-- Kleene disjunction as the spec states it: True if either operand is
True, else Unknown if either is Unknown, else False. -/
def kleeneOr (a b : JsonPathBool) : JsonPathBool :=
  if a = .jpbTrue ∨ b = .jpbTrue then .jpbTrue
  else if a = .jpbUnknown ∨ b = .jpbUnknown then .jpbUnknown
  else .jpbFalse

/-- One object emitted by `.keyvalue()`: the jsonb object
`\x7b "key": K, "value": V, "id": I \x7d` built in the pair loop of
`executeKeyValueMethod`. -/
structure KvEmitted where
  key : List Nat
  value : Jbv
  id : Int

/-- The parts of `JsonPathExecContext` consulted by
`executeKeyValueMethod`: the base object's id and the
`lastGeneratedObjectId` counter (the base container pointer enters only
through the relative byte offset of the iterated object, passed
separately). -/
structure KvContext where
  baseObjectId : Int
  lastGeneratedObjectId : Int

/-- Translation of `executeKeyValueMethod` in the result-collecting shape
(`found` present, no next item, so `executeNextItem` appends each built
object).  `objOffset` is `(char *) jbc - (char *) cxt->baseObject.jbc`,
the byte offset of the iterated object's container inside the base
object; `pairs` are the object's key/value pairs in container order.
Returns the execution result, the emitted objects in order, and the
context with `lastGeneratedObjectId` advanced once per pair (each pair is
installed as base object with a fresh id around its down-chain, then the
previous base object is restored). -/
def executeKeyValueMethod (cxt : KvContext) (objOffset : Int)
    (pairs : List (List Nat × Jbv)) :
    JsonPathExecResult × List KvEmitted × KvContext :=
  if pairs.isEmpty then (.jperNotFound, [], cxt)
  else
    let id := cxt.baseObjectId * 10000000000 + objOffset
    (.jperOk,
     pairs.map (fun kv => ⟨kv.1, kv.2, id⟩),
     ⟨cxt.baseObjectId,
      cxt.lastGeneratedObjectId + pairs.length⟩)

/-- Model of `getScalar(v, jbvNumeric)`: the numeric payload when the item
is numeric. -/
def getScalarNumeric : Jbv → Option ℚ
  | .numeric n => some n
  | _ => none

/-- Abstract outcome of one `executeItem` call: either a raised error, or
the `JsonPathExecResult` together with the sequence the call appended to
its `found` list. -/
abbrev ExecOutcome := Except PgErrCode (JsonPathExecResult × List Jbv)

/-- Abstract next-step evaluator standing for `executeItem` applied to the
chained next path item: takes the value fed forward and the current
`found` list (`none` when the caller collects nothing). -/
abbrev NextExec := Jbv → Option (List Jbv) →
  Except PgErrCode (JsonPathExecResult × Option (List Jbv))

/-- Translation of `executeNextItem` at a call site that knows whether a
next item exists: with a next item the chained item is executed
(abstracted by `nextExec`); with none the value is appended to `found`
when `found` is provided, and `jperOk` is returned. -/
def executeNextItem (hasNext : Bool) (nextExec : NextExec) (v : Jbv)
    (found : Option (List Jbv)) :
    Except PgErrCode (JsonPathExecResult × Option (List Jbv)) :=
  if hasNext then nextExec v found
  else .ok (.jperOk, found.map (fun l => l ++ [v]))

/-- One level of lax-mode array flattening: the unwrap loop of
`executeItemOptUnwrapResult` appends an array item's elements (via
`executeItemUnwrapTargetArray` with a null path) and any other item
itself. -/
def unwrapOneLevel (seq : List Jbv) : List Jbv :=
  seq.flatMap (fun item =>
    match item with
    | .array elems => elems
    | _ => [item])

/-- Translation of `executeItemOptUnwrapResult`: given the outcome of the
underlying `executeItem` call (`inner`), in lax mode with `unwrap` set the
resulting sequence is flattened one array level and the status is
`jperOk`; otherwise the outcome passes through unchanged.  Errors pass
through in both shapes. -/
def executeItemOptUnwrapResult (laxMode unwrap : Bool) (inner : ExecOutcome) :
    ExecOutcome :=
  if unwrap && laxMode then
    match inner with
    | .error e => .error e
    | .ok (res, seq) =>
      if res = .jperError then .ok (res, [])
      else .ok (.jperOk, unwrapOneLevel seq)
  else inner

/-- Translation of `executeBinaryArithmExpr`.  The two operand
evaluations are abstracted by their `executeItem` outcomes `linner` and
`rinner`, wrapped by `executeItemOptUnwrapResult` with `unwrap = true`
exactly as in the source; `func` models the `BinaryArithmFunc` host
numeric operation (`none` meaning the host function reported an error);
`found` is the caller's result list (`none` when absent).  The returned
list component is the updated `found`. -/
def executeBinaryArithmExpr (laxMode throwErrors : Bool)
    (linner rinner : ExecOutcome) (func : ℚ → ℚ → Option ℚ)
    (hasNext : Bool) (nextExec : NextExec) (found : Option (List Jbv)) :
    Except PgErrCode (JsonPathExecResult × Option (List Jbv)) :=
  match executeItemOptUnwrapResult laxMode true linner with
  | .error e => .error e
  | .ok (jper, lseq) =>
    if jper = .jperError then .ok (jper, found)
    else
      match executeItemOptUnwrapResult laxMode true rinner with
      | .error e => .error e
      | .ok (jper2, rseq) =>
        if jper2 = .jperError then .ok (jper2, found)
        else
          match lseq, rseq with
          | [lv], [rv] =>
            match getScalarNumeric lv, getScalarNumeric rv with
            | some lnum, some rnum =>
              match func lnum rnum with
              | none =>
                if throwErrors then .error .hostArithmeticError
                else .ok (.jperError, found)
              | some res =>
                if !hasNext && found.isNone then .ok (.jperOk, none)
                else executeNextItem hasNext nextExec (.numeric res) found
            | _, _ =>
              if throwErrors then .error .singletonSqlJsonItemRequired
              else .ok (.jperError, found)
          | _, _ =>
            if throwErrors then .error .singletonSqlJsonItemRequired
            else .ok (.jperError, found)

/-- Application of the optional host numeric function of
`executeUnaryArithmExpr` (`if (func) val->val.numeric = ...`): the NULL
function pointer used for unary plus leaves the value unchanged. -/
def applyUnaryFunc (func : Option (ℚ → ℚ)) (q : ℚ) : ℚ :=
  match func with
  | some f => f q
  | none => q

/-- The per-item loop of `executeUnaryArithmExpr`: walks the operand
sequence, short-circuiting in existence mode, applying the host function
to numerics, erroring on non-numerics when results matter. -/
def executeUnaryArithmLoop (throwErrors hasNext : Bool) (nextExec : NextExec)
    (func : Option (ℚ → ℚ)) :
    List Jbv → JsonPathExecResult → Option (List Jbv) →
    Except PgErrCode (JsonPathExecResult × Option (List Jbv))
  | [], jper, found => .ok (jper, found)
  | val :: rest, jper, found =>
    match getScalarNumeric val with
    | some num =>
      if found.isNone && !hasNext then .ok (.jperOk, found)
      else
        let v := Jbv.numeric (applyUnaryFunc func num)
        match executeNextItem hasNext nextExec v found with
        | .error e => .error e
        | .ok (jper2, found2) =>
          if jper2 = .jperError then .ok (jper2, found2)
          else if jper2 = .jperOk then
            if found.isNone then .ok (.jperOk, found2)
            else executeUnaryArithmLoop throwErrors hasNext nextExec func
                   rest .jperOk found2
          else executeUnaryArithmLoop throwErrors hasNext nextExec func
                 rest jper found2
    | none =>
      if found.isNone && !hasNext then
        executeUnaryArithmLoop throwErrors hasNext nextExec func
          rest jper found
      else
        if throwErrors then .error .sqlJsonNumberNotFound
        else .ok (.jperError, found)

/-- Translation of `executeUnaryArithmExpr`.  The operand evaluation is
abstracted by its `executeItem` outcome `inner`, wrapped by
`executeItemOptUnwrapResult` with `unwrap = true` as in the source;
`func` models the host numeric function (`none` models the NULL function
pointer used for unary plus).  No singleton check is made: the loop
processes every element of the operand sequence. -/
def executeUnaryArithmExpr (laxMode throwErrors : Bool) (inner : ExecOutcome)
    (func : Option (ℚ → ℚ)) (hasNext : Bool) (nextExec : NextExec)
    (found : Option (List Jbv)) :
    Except PgErrCode (JsonPathExecResult × Option (List Jbv)) :=
  match executeItemOptUnwrapResult laxMode true inner with
  | .error e => .error e
  | .ok (jper, seq) =>
    if jper = .jperError then .ok (jper, found)
    else executeUnaryArithmLoop throwErrors hasNext nextExec func
           seq .jperNotFound found

/-- Translation of the dispatch in `executeJsonPath` (after context
setup).  `exec` abstracts `executeItem` on the whole path: its argument
tells whether a collecting list was supplied, and it returns the final
status and the collected sequence.  In strict mode without a caller
result list, a complete list of values is collected into a temporary list
so that all errors are observed, an error is returned as such, and an
empty final sequence is downgraded to `jperNotFound`; otherwise the
walker runs directly against the caller's list (absent for existence
queries, which may then short-circuit). -/
def executeJsonPath (laxMode hasResult : Bool)
    (exec : Bool → Except PgErrCode (JsonPathExecResult × List Jbv)) :
    Except PgErrCode JsonPathExecResult :=
  if !laxMode && !hasResult then
    match exec true with
    | .error e => .error e
    | .ok (res, vals) =>
      if res = .jperError then .ok res
      else .ok (if vals.isEmpty then .jperNotFound else .jperOk)
  else
    match exec hasResult with
    | .error e => .error e
    | .ok (res, _) => .ok res

/-- Translation of the result dispatch of `jsonb_path_match_internal`:
given the sequence produced by `executeJsonPath` and the `silent` flag, a
single boolean result is returned as that boolean, a single null result
as SQL null (`none`); every other shape raises
`ERRCODE_SINGLETON_SQL_JSON_ITEM_REQUIRED` unless silent, in which case
SQL null is returned. -/
def jsonb_path_match_internal (found : List Jbv) (silent : Bool) :
    Except PgErrCode (Option Bool) :=
  match found with
  | [.bool b] => .ok (some b)
  | [.null] => .ok none
  | _ => if !silent then .error .singletonSqlJsonItemRequired else .ok none

/-- JSON_TABLE plan-state tree as walked by `JsonTablePlanNextRow`: a
path-scan node holds the not-yet-fetched tail of its row-pattern result
sequence (nested-plan-free scans; the current row is the last value
fetched), a sibling-join node holds its two children. -/
inductive TablePlanState where
  | scan (remaining : List Jbv)
  | join (left right : TablePlanState)

/-- Translation of `JsonTablePlanNextRow` and its two arms: a path scan
(`JsonTablePlanScanNextRow` without nested plans) pulls the next item of
its result sequence, reporting exhaustion when the iterator is done; a
sibling join (`JsonTablePlanJoinNextRow`) fetches from the left sibling
and, only when the left reports exhaustion, from the right sibling.
Returns the fetched row (`none` on exhaustion) and the advanced state. -/
def JsonTablePlanNextRow : TablePlanState → Option Jbv × TablePlanState
  | .scan [] => (none, .scan [])
  | .scan (v :: rest) => (some v, .scan rest)
  | .join l r =>
    match JsonTablePlanNextRow l with
    | (some v, l2) => (some v, .join l2 r)
    | (none, l2) =>
      match JsonTablePlanNextRow r with
      | (some v, r2) => (some v, .join l2 r2)
      | (none, r2) => (none, .join l2 r2)

/-- Rows remaining in a plan state, in fetch order. -/
def planRows : TablePlanState → List Jbv
  | .scan l => l
  | .join l r => planRows l ++ planRows r

/-- Repeatedly calling `JsonTablePlanNextRow` (as `JsonTableFetchRow`
does) until exhaustion or until the fuel runs out, collecting the fetched
rows in order. -/
def fetchAllRows : Nat → TablePlanState → List Jbv
  | 0, _ => []
  | fuel + 1, p =>
    match JsonTablePlanNextRow p with
    | (some v, p2) => v :: fetchAllRows fuel p2
    | (none, _) => []

theorem intCmp_antisymm (a b : Int) : intCmp a b + intCmp b a = 0 := by
  unfold intCmp
  rcases lt_trichotomy a b with h | h | h <;> simp [h] <;> omega

/-- C9: comparing two JSON null items treats them as equal scalars
(`compareItems` assigns `cmp = 0` in the `jbvNull` arm): `null == null`
is True, `null <> null` is False, `null <= null` and `null >= null` are
True, `null < null` and `null > null` are False. -/
theorem compareItems_null_null (ops : HostDatetimeOps) (useTz : Bool) :
    compareItems ops .jpiEqual .null .null useTz = .ok .jpbTrue ∧
    compareItems ops .jpiNotEqual .null .null useTz = .ok .jpbFalse ∧
    compareItems ops .jpiLessOrEqual .null .null useTz = .ok .jpbTrue ∧
    compareItems ops .jpiGreaterOrEqual .null .null useTz = .ok .jpbTrue ∧
    compareItems ops .jpiLess .null .null useTz = .ok .jpbFalse ∧
    compareItems ops .jpiGreater .null .null useTz = .ok .jpbFalse :=
  ⟨rfl, rfl, rfl, rfl, rfl, rfl⟩

/-- C3: for every comparison operator, one JSON null against one non-null
item yields False except for `<>` which yields True; and two non-null
scalar items of different kinds yield Unknown. -/
theorem compareItems_null_vs_nonnull (ops : HostDatetimeOps) (op : JspCmpOp)
    (jb1 jb2 : Jbv) (useTz : Bool) :
    ((jb1.jbvTypeOf = .jbvNull ∧ jb2.jbvTypeOf ≠ .jbvNull) ∨
       (jb2.jbvTypeOf = .jbvNull ∧ jb1.jbvTypeOf ≠ .jbvNull) →
     compareItems ops op jb1 jb2 useTz =
       .ok (if op = .jpiNotEqual then .jpbTrue else .jpbFalse)) ∧
    (jb1.jbvTypeOf ≠ jb2.jbvTypeOf → jb1.jbvTypeOf ≠ .jbvNull →
     jb2.jbvTypeOf ≠ .jbvNull → jb1.jbvTypeOf.isScalar = true →
     jb2.jbvTypeOf.isScalar = true →
     compareItems ops op jb1 jb2 useTz = .ok .jpbUnknown) := by
  constructor
  · rintro (⟨h1, h2⟩ | ⟨h1, h2⟩) <;>
      cases jb1 <;> cases jb2 <;> simp_all [compareItems, Jbv.jbvTypeOf]
  · intro hne hn1 hn2 hs1 hs2
    cases jb1 <;> cases jb2 <;>
      simp_all [compareItems, Jbv.jbvTypeOf, JbvType.isScalar]

theorem compareItems_null_vs_nonnull_witness :
    compareItems pgHostOpsModel .jpiNotEqual .null (.bool true) true =
      .ok .jpbTrue ∧
    compareItems pgHostOpsModel .jpiLess (.bool true) (.string [97]) true =
      .ok .jpbUnknown := by
  constructor
  · have h := (compareItems_null_vs_nonnull pgHostOpsModel .jpiNotEqual
      .null (.bool true) true).1 (Or.inl ⟨rfl, by decide⟩)
    simpa using h
  · exact (compareItems_null_vs_nonnull pgHostOpsModel .jpiLess
      (.bool true) (.string [97]) true).2 (by decide) (by decide) (by decide)
      (by decide) (by decide)

/-- C4: the datetime comparison ladder of `compareDatetime` is
antisymmetric on comparable type pairs whenever the host same-type
comparison primitives are; uncomparable pairs make every ordering
operator yield Unknown at the `compareItems` level; and every ladder
entry that requires timezone use raises `FEATURE_NOT_SUPPORTED` (a hard
error, not Unknown) when `useTz` is false. -/
theorem compareDatetime_ladder (ops : HostDatetimeOps)
    (hd : ∀ a b, ops.date_cmp a b + ops.date_cmp b a = 0)
    (ht : ∀ a b, ops.time_cmp a b + ops.time_cmp b a = 0)
    (htz : ∀ a b, ops.timetz_cmp a b + ops.timetz_cmp b a = 0)
    (hts : ∀ a b, ops.timestamp_cmp a b + ops.timestamp_cmp b a = 0) :
    (∀ (useTz : Bool) (v1 : Int) (t1 : DtType) (v2 : Int) (t2 : DtType)
       (c : Int),
       compareDatetime ops v1 t1 v2 t2 useTz = .ok (c, false) →
       compareDatetime ops v2 t2 v1 t1 useTz = .ok (-c, false)) ∧
    (∀ (t1 t2 : DtType), dtComparable t1 t2 = false →
       ∀ (op : JspCmpOp) (v1 v2 : Int) (useTz : Bool),
         compareItems ops op (.datetime v1 t1) (.datetime v2 t2) useTz =
           .ok .jpbUnknown) ∧
    (∀ (t1 t2 : DtType), dtNeedsTz t1 t2 = true →
       ∀ (v1 v2 : Int),
         compareDatetime ops v1 t1 v2 t2 false =
           .error .featureNotSupported) := by
  refine ⟨?_, ?_, ?_⟩
  · intro useTz v1 t1 v2 t2 c h
    cases t1 <;> cases t2 <;> cases useTz <;>
      simp_all [compareDatetime, cmpDateToTimestamp, cmpDateToTimestampTz,
        cmpTimestampToTimestampTz, castTimeToTimeTz,
        checkTimezoneIsUsedForCast, Except.map] <;>
      (first
        | omega
        | (have h1 := hd v1 v2
           have h2 := ht v1 v2
           have h3 := htz v1 v2
           have h4 := hts v1 v2
           have h5 := htz (ops.time_timetz v1) v2
           have h6 := htz v1 (ops.time_timetz v2)
           omega))
  · intro t1 t2 hc op v1 v2 useTz
    cases t1 <;> cases t2 <;>
      simp_all [compareItems, Jbv.jbvTypeOf, compareDatetime, dtComparable]
  · intro t1 t2 hn v1 v2
    cases t1 <;> cases t2 <;>
      simp_all [compareDatetime, cmpDateToTimestampTz,
        cmpTimestampToTimestampTz, castTimeToTimeTz,
        checkTimezoneIsUsedForCast, Except.map, dtNeedsTz]

theorem compareDatetime_ladder_witness :
    compareDatetime pgHostOpsModel 0 .date 5 .timestamp true =
      .ok (-1, false) ∧
    compareItems pgHostOpsModel .jpiLess (.datetime 0 .date)
      (.datetime 0 .time) true = .ok .jpbUnknown ∧
    compareDatetime pgHostOpsModel 0 .date 0 .timestamptz false =
      .error .featureNotSupported := by
  have h := compareDatetime_ladder pgHostOpsModel
    (fun a b => intCmp_antisymm a b) (fun a b => intCmp_antisymm a b)
    (fun a b => intCmp_antisymm a b) (fun a b => intCmp_antisymm a b)
  exact ⟨h.1 true 5 .timestamp 0 .date 1 (by decide),
    h.2.1 .date .time rfl .jpiLess 0 0 true,
    h.2.2 .date .timestamptz rfl 0 0⟩

theorem list_map_eq_replicate {α β : Type} (f : α → β) (c : β)
    (h : ∀ a, f a = c) (l : List α) :
    l.map f = List.replicate l.length c := by
  induction l with
  | nil => rfl
  | cons x xs ih => simp [h x, ih, List.replicate_succ]

/-- C2 counterexample: `executeBoolItem` does not evaluate the right
operand of AND when the left operand is False — it returns False at once
(regardless of mode), so the right-hand predicate leaf never appears in
the evaluation trace. -/
theorem executeBoolItem_and_skips_right :
    executeBoolItem (.jpiAnd (.pred 0 .jpbFalse) (.pred 1 .jpbTrue)) =
      (.jpbFalse, [0]) ∧
    ¬ 1 ∈ (executeBoolItem (.jpiAnd (.pred 0 .jpbFalse) (.pred 1 .jpbTrue))).2 := by
  decide

/-- C2 (amended): AND short-circuits when its left operand is False (and
OR when its left operand is True), in strict mode as in lax; in every
other case the right operand is evaluated as well — in particular when
the left operand is Unknown, so errors in the second operand are
surfaced — and the resulting value always follows Kleene logic: AND is
False if either operand is False, else Unknown if either is Unknown,
else True (dually for OR). -/
theorem executeBoolItem_kleene (l r : BoolExpr) :
    (executeBoolItem (.jpiAnd l r)).1 =
      kleeneAnd (executeBoolItem l).1 (executeBoolItem r).1 ∧
    (executeBoolItem (.jpiOr l r)).1 =
      kleeneOr (executeBoolItem l).1 (executeBoolItem r).1 ∧
    ((executeBoolItem l).1 = .jpbFalse →
      (executeBoolItem (.jpiAnd l r)).2 = (executeBoolItem l).2) ∧
    ((executeBoolItem l).1 ≠ .jpbFalse →
      (executeBoolItem (.jpiAnd l r)).2 =
        (executeBoolItem l).2 ++ (executeBoolItem r).2) ∧
    ((executeBoolItem l).1 = .jpbTrue →
      (executeBoolItem (.jpiOr l r)).2 = (executeBoolItem l).2) ∧
    ((executeBoolItem l).1 ≠ .jpbTrue →
      (executeBoolItem (.jpiOr l r)).2 =
        (executeBoolItem l).2 ++ (executeBoolItem r).2) := by
  rcases hl : executeBoolItem l with ⟨lv, lt⟩
  rcases hr : executeBoolItem r with ⟨rv, rt⟩
  cases lv <;> cases rv <;>
    simp [executeBoolItem, hl, hr, kleeneAnd, kleeneOr]

theorem executeBoolItem_kleene_witness :
    (executeBoolItem (.jpiAnd (.pred 0 .jpbUnknown) (.pred 1 .jpbFalse))).1 =
      .jpbFalse ∧
    (executeBoolItem (.jpiAnd (.pred 0 .jpbUnknown) (.pred 1 .jpbFalse))).2 =
      [0, 1] := by
  have h := executeBoolItem_kleene (.pred 0 .jpbUnknown) (.pred 1 .jpbFalse)
  exact ⟨h.1.trans (by decide), (h.2.2.2.1 (by decide)).trans (by decide)⟩

/-- C1 counterexample: the `id` field is not distinct across the pairs
emitted by `.keyvalue()` — `executeKeyValueMethod` computes `id` once per
iterated object, before the pair loop, so the two pairs of a two-key
object carry the same id. -/
theorem executeKeyValueMethod_ids_not_distinct :
    ¬ List.Pairwise (fun a b => a ≠ b)
      (((executeKeyValueMethod ⟨0, 1⟩ 0
          [([97], .null), ([98], .null)]).2.1).map KvEmitted.id) := by
  decide

/-- C1 (amended): every object emitted by one `.keyvalue()` application
carries the same `id`, equal to `baseObjectId * 10^10` plus the byte
offset of the iterated object's container inside the base object; the id
therefore identifies the container the pairs belong to (distinct
containers within an evaluation get distinct ids), not the individual
pair. -/
theorem executeKeyValueMethod_id_shared (cxt : KvContext) (objOffset : Int)
    (pairs : List (List Nat × Jbv)) :
    ((executeKeyValueMethod cxt objOffset pairs).2.1).map KvEmitted.id =
      List.replicate pairs.length
        (cxt.baseObjectId * 10000000000 + objOffset) := by
  cases pairs with
  | nil => simp [executeKeyValueMethod]
  | cons p ps =>
    simp only [executeKeyValueMethod, List.isEmpty_cons, Bool.false_eq_true,
      if_false, List.map_map]
    exact list_map_eq_replicate _ _ (fun a => rfl) (p :: ps)

/-- C6: without a result list, `executeJsonPath` in strict mode runs the
walker with a temporary collecting list (full enumeration), returns the
error if the walker errored, and otherwise downgrades an empty final
sequence to NotFound and a non-empty one to Ok; in lax mode it runs the
walker without any collecting list, whose outcome (possibly
short-circuited at the first result) is passed through. -/
theorem executeJsonPath_existence
    (exec : Bool → Except PgErrCode (JsonPathExecResult × List Jbv))
    (res : JsonPathExecResult) (vals : List Jbv) :
    (exec true = .ok (res, vals) →
      executeJsonPath false false exec =
        .ok (if res = .jperError then .jperError
             else if vals.isEmpty then .jperNotFound else .jperOk)) ∧
    (∀ e, exec true = .error e →
      executeJsonPath false false exec = .error e) ∧
    (executeJsonPath true false exec = (exec false).map (fun p => p.1)) := by
  refine ⟨?_, ?_, ?_⟩
  · intro h
    by_cases hr : res = .jperError <;> simp [executeJsonPath, h, hr]
  · intro e h
    simp [executeJsonPath, h]
  · rcases h : exec false with e | p <;>
      simp [executeJsonPath, h, Except.map]

theorem executeJsonPath_existence_witness :
    executeJsonPath false false
        (fun _ => .ok (.jperOk, ([] : List Jbv))) = .ok .jperNotFound := by
  have h := (executeJsonPath_existence
    (fun _ => .ok (.jperOk, ([] : List Jbv))) .jperOk []).1 rfl
  simpa using h

/-- C7: the result dispatch of the match operation returns the boolean
when the final sequence is exactly one boolean, SQL null when it is
exactly one JSON null, and in every other case raises
`SINGLETON_SQL_JSON_ITEM_REQUIRED` when `silent` is false and returns SQL
null when `silent` is true. -/
theorem jsonb_path_match_internal_spec (found : List Jbv) (silent : Bool) :
    (∀ b, found = [Jbv.bool b] →
      jsonb_path_match_internal found silent = .ok (some b)) ∧
    (found = [Jbv.null] → jsonb_path_match_internal found silent = .ok none) ∧
    ((∀ b, found ≠ [Jbv.bool b]) → found ≠ [Jbv.null] →
      jsonb_path_match_internal found silent =
        if silent then .ok none else .error .singletonSqlJsonItemRequired) := by
  refine ⟨?_, ?_, ?_⟩
  · rintro b rfl; rfl
  · rintro rfl; rfl
  · intro hb hn
    rcases found with _ | ⟨x, rest⟩
    · cases silent <;> rfl
    · rcases rest with _ | ⟨y, rest2⟩
      · cases x <;>
          first
            | exact absurd rfl (hb _)
            | exact absurd rfl hn
            | (cases silent <;> rfl)
      · cases x <;> cases silent <;> rfl

theorem jsonb_path_match_internal_spec_witness :
    jsonb_path_match_internal [Jbv.bool true] false = .ok (some true) ∧
    jsonb_path_match_internal [] false =
      .error .singletonSqlJsonItemRequired := by
  have h1 := (jsonb_path_match_internal_spec [Jbv.bool true] false).1 true rfl
  have h2 := (jsonb_path_match_internal_spec [] false).2.2
    (fun b h => List.noConfusion h) (fun h => List.noConfusion h)
  exact ⟨h1, by simpa using h2⟩

/-- C5: a binary arithmetic operation evaluates both operands with
result-unwrapping (in lax mode the operand sequence is the one-level
array flattening of the walker's output); an error raised while
evaluating the right operand surfaces even before the left operand is
inspected; and whenever either operand's resulting sequence is not
exactly one numeric item, the operation raises
`SINGLETON_SQL_JSON_ITEM_REQUIRED` when `throwErrors` is set and returns
the Error status otherwise. -/
theorem executeBinaryArithmExpr_singleton (laxMode throwErrors : Bool)
    (linner rinner : ExecOutcome) (func : ℚ → ℚ → Option ℚ)
    (hasNext : Bool) (nextExec : NextExec) (found : Option (List Jbv))
    (jl : JsonPathExecResult) (ll : List Jbv) :
    (∀ seq : List Jbv,
      executeItemOptUnwrapResult true true (.ok (.jperOk, seq)) =
        .ok (.jperOk, unwrapOneLevel seq)) ∧
    (executeItemOptUnwrapResult laxMode true linner = .ok (jl, ll) →
     jl ≠ .jperError →
     (∀ e, executeItemOptUnwrapResult laxMode true rinner = .error e →
        executeBinaryArithmExpr laxMode throwErrors linner rinner func
          hasNext nextExec found = .error e) ∧
     (∀ (jr : JsonPathExecResult) (rl : List Jbv),
        executeItemOptUnwrapResult laxMode true rinner = .ok (jr, rl) →
        jr ≠ .jperError →
        ((¬ ∃ q, ll = [Jbv.numeric q]) →
          executeBinaryArithmExpr laxMode throwErrors linner rinner func
            hasNext nextExec found =
            if throwErrors then .error .singletonSqlJsonItemRequired
            else .ok (.jperError, found)) ∧
        ((¬ ∃ q, rl = [Jbv.numeric q]) →
          executeBinaryArithmExpr laxMode throwErrors linner rinner func
            hasNext nextExec found =
            if throwErrors then .error .singletonSqlJsonItemRequired
            else .ok (.jperError, found)))) := by
  constructor
  · intro seq
    simp [executeItemOptUnwrapResult]
  · intro hL hjl
    constructor
    · intro e hR
      simp [executeBinaryArithmExpr, hL, hjl, hR]
    · intro jr rl hR hjr
      constructor
      · intro hns
        rcases ll with _ | ⟨lv, lrest⟩
        · simp [executeBinaryArithmExpr, hL, hjl, hR, hjr]
        · rcases lrest with _ | ⟨lv2, lrest2⟩
          · have hlv : getScalarNumeric lv = none := by
              cases lv <;>
                first
                  | rfl
                  | exact absurd ⟨_, rfl⟩ hns
            rcases rl with _ | ⟨rv, rrest⟩
            · simp [executeBinaryArithmExpr, hL, hjl, hR, hjr]
            · rcases rrest with _ | ⟨rv2, rrest2⟩
              · simp [executeBinaryArithmExpr, hL, hjl, hR, hjr, hlv]
              · simp [executeBinaryArithmExpr, hL, hjl, hR, hjr]
          · simp [executeBinaryArithmExpr, hL, hjl, hR, hjr]
      · intro hns
        rcases ll with _ | ⟨lv, lrest⟩
        · simp [executeBinaryArithmExpr, hL, hjl, hR, hjr]
        · rcases lrest with _ | ⟨lv2, lrest2⟩
          · rcases rl with _ | ⟨rv, rrest⟩
            · simp [executeBinaryArithmExpr, hL, hjl, hR, hjr]
            · rcases rrest with _ | ⟨rv2, rrest2⟩
              · have hrv : getScalarNumeric rv = none := by
                  cases rv <;>
                    first
                      | rfl
                      | exact absurd ⟨_, rfl⟩ hns
                rcases hglv : getScalarNumeric lv with _ | q <;>
                  simp [executeBinaryArithmExpr, hL, hjl, hR, hjr, hglv, hrv]
              · simp [executeBinaryArithmExpr, hL, hjl, hR, hjr]
          · simp [executeBinaryArithmExpr, hL, hjl, hR, hjr]

theorem executeBinaryArithmExpr_singleton_witness :
    executeBinaryArithmExpr true false
        (.ok (.jperOk, [Jbv.numeric 1, Jbv.numeric 2]))
        (.ok (.jperOk, [Jbv.numeric 3]))
        (fun a b => some (a + b)) false (fun _ f => .ok (.jperOk, f))
        (some []) = .ok (.jperError, some []) := by
  have h := ((executeBinaryArithmExpr_singleton true false
      (.ok (.jperOk, [Jbv.numeric 1, Jbv.numeric 2]))
      (.ok (.jperOk, [Jbv.numeric 3]))
      (fun a b => some (a + b)) false (fun _ f => .ok (.jperOk, f))
      (some []) .jperOk [Jbv.numeric 1, Jbv.numeric 2]).2
      rfl (by decide)).2 .jperOk [Jbv.numeric 3] rfl (by decide)
  have h2 := h.1 (by rintro ⟨q, hq⟩; simp at hq)
  simpa using h2

theorem executeUnaryArithmLoop_numericAll (throwErrors : Bool)
    (nextExec : NextExec) (func : Option (ℚ → ℚ)) :
    ∀ (nums : List ℚ) (acc : List Jbv) (jper : JsonPathExecResult),
      executeUnaryArithmLoop throwErrors false nextExec func
          (nums.map Jbv.numeric) jper (some acc) =
        .ok ((if nums.isEmpty then jper else .jperOk),
             some (acc ++ nums.map (fun q =>
               Jbv.numeric (applyUnaryFunc func q)))) := by
  intro nums
  induction nums with
  | nil =>
    intro acc jper
    simp [executeUnaryArithmLoop]
  | cons q qs ih =>
    intro acc jper
    simp [executeUnaryArithmLoop, getScalarNumeric, executeNextItem, ih,
      List.append_assoc]

theorem executeUnaryArithmLoop_nonNumeric (throwErrors : Bool)
    (nextExec : NextExec) (func : Option (ℚ → ℚ)) (bad : Jbv)
    (hbad : getScalarNumeric bad = none) (rest : List Jbv) :
    ∀ (nums : List ℚ) (acc : List Jbv) (jper : JsonPathExecResult),
      executeUnaryArithmLoop throwErrors false nextExec func
          (nums.map Jbv.numeric ++ bad :: rest) jper (some acc) =
        if throwErrors then .error .sqlJsonNumberNotFound
        else .ok (.jperError,
          some (acc ++ nums.map (fun q =>
            Jbv.numeric (applyUnaryFunc func q)))) := by
  intro nums
  induction nums with
  | nil =>
    intro acc jper
    simp [executeUnaryArithmLoop, hbad]
  | cons q qs ih =>
    intro acc jper
    simp [executeUnaryArithmLoop, getScalarNumeric, executeNextItem, ih,
      List.append_assoc]

/-- C10: the unary arithmetic operators impose no singleton requirement:
the operand is evaluated with result-unwrapping and the operation is
applied element-wise, producing one output item per numeric input item in
order (with `func` absent modelling unary plus); a non-numeric item makes
the operation fail with `SQL_JSON_NUMBER_NOT_FOUND` when results are
being collected (raised under `throwErrors`, an Error status otherwise),
after the preceding numeric items were already appended. -/
theorem executeUnaryArithmExpr_elementwise (laxMode throwErrors : Bool)
    (inner : ExecOutcome) (func : Option (ℚ → ℚ)) (nextExec : NextExec)
    (l : List Jbv) (jper0 : JsonPathExecResult) (nums : List ℚ) :
    (executeItemOptUnwrapResult laxMode true inner =
        .ok (jper0, nums.map Jbv.numeric) →
     jper0 ≠ .jperError →
     executeUnaryArithmExpr laxMode throwErrors inner func false nextExec
         (some l) =
       .ok ((if nums.isEmpty then .jperNotFound else .jperOk),
            some (l ++ nums.map (fun q =>
              Jbv.numeric (applyUnaryFunc func q))))) ∧
    (∀ (bad : Jbv) (rest : List Jbv), getScalarNumeric bad = none →
     executeItemOptUnwrapResult laxMode true inner =
        .ok (jper0, nums.map Jbv.numeric ++ bad :: rest) →
     jper0 ≠ .jperError →
     executeUnaryArithmExpr laxMode throwErrors inner func false nextExec
         (some l) =
       if throwErrors then .error .sqlJsonNumberNotFound
       else .ok (.jperError,
         some (l ++ nums.map (fun q =>
           Jbv.numeric (applyUnaryFunc func q))))) := by
  constructor
  · intro h hj
    simp [executeUnaryArithmExpr, h, hj, executeUnaryArithmLoop_numericAll]
  · intro bad rest hbad h hj
    simp [executeUnaryArithmExpr, h, hj,
      executeUnaryArithmLoop_nonNumeric throwErrors nextExec func bad hbad rest]

theorem executeUnaryArithmExpr_elementwise_witness :
    executeUnaryArithmExpr false false
        (.ok (.jperOk, [Jbv.numeric 2, Jbv.numeric 3]))
        (some (fun q => -q)) false (fun _ f => .ok (.jperOk, f))
        (some []) = .ok (.jperOk, some [Jbv.numeric (-2), Jbv.numeric (-3)]) := by
  have h := (executeUnaryArithmExpr_elementwise false false
      (.ok (.jperOk, [Jbv.numeric 2, Jbv.numeric 3]))
      (some (fun q => -q)) (fun _ f => .ok (.jperOk, f)) []
      .jperOk [2, 3]).1 rfl (by decide)
  simpa using h

theorem planRows_nextRow (p : TablePlanState) :
    (∀ v p2, JsonTablePlanNextRow p = (some v, p2) →
      planRows p = v :: planRows p2) ∧
    (∀ p2, JsonTablePlanNextRow p = (none, p2) →
      planRows p = [] ∧ planRows p2 = []) := by
  induction p with
  | scan l =>
    cases l with
    | nil =>
      constructor
      · intro v p2 h
        simp [JsonTablePlanNextRow] at h
      · intro p2 h
        simp only [JsonTablePlanNextRow, Prod.mk.injEq, true_and] at h
        subst h
        simp [planRows]
    | cons w rest =>
      constructor
      · intro v p2 h
        simp only [JsonTablePlanNextRow, Prod.mk.injEq,
          Option.some.injEq] at h
        rcases h with ⟨h1, h2⟩
        subst h1; subst h2
        simp [planRows]
      · intro p2 h
        simp [JsonTablePlanNextRow] at h
  | join l r ihl ihr =>
    constructor
    · intro v p2 h
      simp only [JsonTablePlanNextRow] at h
      rcases hl : JsonTablePlanNextRow l with ⟨ol, l2⟩
      rw [hl] at h
      cases ol with
      | some w =>
        simp only [Prod.mk.injEq, Option.some.injEq] at h
        rcases h with ⟨h1, h2⟩
        subst h1; subst h2
        simp [planRows, ihl.1 w l2 hl]
      | none =>
        rcases hr : JsonTablePlanNextRow r with ⟨orr, r2⟩
        rw [hr] at h
        cases orr with
        | some w =>
          simp only [Prod.mk.injEq, Option.some.injEq] at h
          rcases h with ⟨h1, h2⟩
          subst h1; subst h2
          have hle := ihl.2 l2 hl
          simp [planRows, hle.1, hle.2, ihr.1 w r2 hr]
        | none => simp at h
    · intro p2 h
      simp only [JsonTablePlanNextRow] at h
      rcases hl : JsonTablePlanNextRow l with ⟨ol, l2⟩
      rw [hl] at h
      cases ol with
      | some w => simp at h
      | none =>
        rcases hr : JsonTablePlanNextRow r with ⟨orr, r2⟩
        rw [hr] at h
        cases orr with
        | some w => simp at h
        | none =>
          simp only [Prod.mk.injEq, true_and] at h
          subst h
          have hle := ihl.2 l2 hl
          have hre := ihr.2 r2 hr
          simp [planRows, hle.1, hle.2, hre.1, hre.2]

theorem nextRow_of_planRows_nil (p : TablePlanState)
    (h : planRows p = []) : (JsonTablePlanNextRow p).1 = none := by
  induction p with
  | scan l =>
    subst h
    rfl
  | join l r ihl ihr =>
    rcases List.append_eq_nil.mp h with ⟨h1, h2⟩
    have hl2 := ihl h1
    have hr2 := ihr h2
    simp only [JsonTablePlanNextRow]
    rcases hl : JsonTablePlanNextRow l with ⟨ol, l2⟩
    rw [hl] at hl2
    cases ol with
    | some w => simp at hl2
    | none =>
      rcases hr : JsonTablePlanNextRow r with ⟨orr, r2⟩
      rw [hr] at hr2
      cases orr with
      | some w => simp at hr2
      | none => simp [hl, hr]

theorem fetchAllRows_planRows (fuel : Nat) (p : TablePlanState)
    (h : (planRows p).length ≤ fuel) : fetchAllRows fuel p = planRows p := by
  induction fuel generalizing p with
  | zero =>
    have : planRows p = [] := List.eq_nil_of_length_eq_zero (Nat.le_zero.mp h)
    simp [fetchAllRows, this]
  | succ n ih =>
    rcases hn : JsonTablePlanNextRow p with ⟨ov, p2⟩
    cases ov with
    | some v =>
      have hr := (planRows_nextRow p).1 v p2 hn
      have hlen : (planRows p2).length ≤ n := by
        have := congrArg List.length hr
        simp at this
        omega
      simp [fetchAllRows, hn, hr, ih p2 hlen]
    | none =>
      have hr := (planRows_nextRow p).2 p2 hn
      simp [fetchAllRows, hn, hr.1]

/-- C8: a JSON_TABLE sibling join fetches exactly the rows of the left
child followed by the rows of the right child (every left row before any
right row, switching to the right child only once the left child is
exhausted), its total row count is the sum of the children's counts, and
one `JsonTablePlanNextRow` call on it reports exhaustion exactly when
both children are exhausted. -/
theorem JsonTablePlanJoinNextRow_union (l r : TablePlanState) (fuel : Nat)
    (h : (planRows (.join l r)).length ≤ fuel) :
    fetchAllRows fuel (.join l r) = planRows l ++ planRows r ∧
    (fetchAllRows fuel (.join l r)).length =
      (planRows l).length + (planRows r).length ∧
    ((JsonTablePlanNextRow (.join l r)).1 = none ↔
      planRows l = [] ∧ planRows r = []) := by
  have hf := fetchAllRows_planRows fuel (.join l r) h
  refine ⟨by simpa [planRows] using hf, by simp [hf, planRows], ?_⟩
  constructor
  · intro hn
    have hpair : JsonTablePlanNextRow (.join l r) =
        (none, (JsonTablePlanNextRow (.join l r)).2) := by
      rw [← hn]
    have := ((planRows_nextRow (.join l r)).2 _ hpair).1
    simpa [planRows] using this
  · rintro ⟨h1, h2⟩
    exact nextRow_of_planRows_nil (.join l r) (by simp [planRows, h1, h2])

theorem JsonTablePlanJoinNextRow_union_witness :
    fetchAllRows 3 (.join (.scan [Jbv.null, Jbv.bool true])
        (.scan [Jbv.bool false])) =
      planRows (.scan [Jbv.null, Jbv.bool true]) ++
        planRows (.scan [Jbv.bool false]) := by
  exact (JsonTablePlanJoinNextRow_union (.scan [Jbv.null, Jbv.bool true])
    (.scan [Jbv.bool false]) 3 (by simp [planRows])).1

end JsonpathExec
